import Mathlib

/-!
Verification of the Deepavali showcase front-end: a shallow embedding of the
slideshow controller, `useInterval` hook, greeting rotator, ember particle
field, FX options, firework pops and audio transport, with theorems checking
the specification's claims.

Numbers from the TypeScript source are modelled as rationals (ℚ) or integers
(ℤ); arrays as lists; `x ?? default` as `Option.getD`; the JavaScript
remainder operator as the truncation-based remainder (`Int.tmod` on ℤ, `jsMod`
on ℚ); `Math.random()` draws as explicitly passed rational parameters in
`[0, 1)`.
-/

namespace Deepavali

/-! ## Definitions

### Showcase controller (`DeepavaliShowcase`, src/unnamed/part_000)

Source: `const next = () => setIndex((p) => (p + 1) % total)` and
`const prev = () => setIndex((p) => (p - 1 + total) % total)`.
-/

/-- Index update performed by `next()`: `(p + 1) % total` (JavaScript `%` on
integer values is the truncated remainder `Int.tmod`). -/
def nextIndex (total p : ℤ) : ℤ := (p + 1).tmod total

/-- Index update performed by `prev()`: `(p - 1 + total) % total`. -/
def prevIndex (total p : ℤ) : ℤ := (p - 1 + total).tmod total

/-- One user navigation action on the showcase. -/
inductive NavStep where
  | next : NavStep
  | prev : NavStep
deriving DecidableEq, Repr

/-- Apply one navigation action to the current index. -/
def applyStep (total p : ℤ) : NavStep → ℤ
  | NavStep.next => nextIndex total p
  | NavStep.prev => prevIndex total p

/-- Run a finite sequence of `next()`/`prev()` calls from index `p`. -/
def runSteps (total : ℤ) (p : ℤ) (ss : List NavStep) : ℤ :=
  ss.foldl (applyStep total) p

/-!
### The `useInterval` hook and the autoplay wiring (src/unnamed/part_000)

Source:
```
const useInterval = (cb, delay) => {
  const saved = useRef(cb);
  useEffect(() => void (saved.current = cb), [cb]);
  useEffect(() => {
    if (delay == null) return;
    const id = setInterval(() => saved.current(), delay);
    return () => clearInterval(id);
  }, [delay]);
};
...
useInterval(() => { if (autoPlay) next(); }, autoPlay ? intervalMs : null);
```
React runs the previous effect's cleanup (`clearInterval(id)`) before
re-running the effect body, which arms a fresh interval only when
`delay != null`.  The hook is modelled as the set of interval ids it currently
has registered (`live`) plus the id held by the current effect (`cur`).
-/

/-- Registered-interval state of one `useInterval` hook instance. -/
structure HookState where
  live : List ℕ
  cur : Option ℕ
deriving DecidableEq, Repr

/-- Hook state before the first effect run: nothing armed. -/
def initHook : HookState := ⟨[], none⟩

/-- One re-run of the delay effect with dependency value `delay`: the previous
cleanup clears the old interval (if one was armed), then `setInterval` arms a
fresh id exactly when `delay` is non-null. -/
def rerunHook (s : HookState) (delay : Option ℕ) (fresh : ℕ) : HookState :=
  let cleared := match s.cur with
    | some id => s.live.erase id
    | none => s.live
  match delay with
  | some _ => ⟨cleared ++ [fresh], some fresh⟩
  | none => ⟨cleared, none⟩

/-- Fold a sequence of effect re-runs (each with its delay value and a fresh
interval id) over the hook state. -/
def rerunAll (s : HookState) (runs : List (Option ℕ × ℕ)) : HookState :=
  runs.foldl (fun acc dr => rerunHook acc dr.1 dr.2) s

/-- Delay argument the showcase passes to `useInterval`:
`autoPlay ? intervalMs : null`. -/
def showcaseDelay (autoPlay : Bool) (intervalMs : ℕ) : Option ℕ :=
  if autoPlay then some intervalMs else none

/-- Combined state of the showcase's slide index and its interval hook. -/
structure ShowcaseSys where
  hook : HookState
  index : ℤ
deriving DecidableEq, Repr

/-- Initial system state: `useState(0)` for the index, nothing armed. -/
def initSys : ShowcaseSys := ⟨initHook, 0⟩

/-- Scheduler events affecting the slide-advance timer: an effect re-run
(with a fresh interval id) or the firing of an armed interval. -/
inductive SysEvent where
  | rerun (fresh : ℕ) : SysEvent
  | fire : SysEvent

/-- One scheduler step.  A `fire` can only act when some interval is live; the
interval callback is `() => { if (autoPlay) next(); }`. -/
def sysStep (autoPlay : Bool) (intervalMs : ℕ) (total : ℤ) (s : ShowcaseSys) :
    SysEvent → ShowcaseSys
  | SysEvent.rerun fresh =>
      { s with hook := rerunHook s.hook (showcaseDelay autoPlay intervalMs) fresh }
  | SysEvent.fire =>
      if s.hook.live = [] then s
      else { s with index := if autoPlay then nextIndex total s.index else s.index }

/-- Run a finite sequence of scheduler events. -/
def sysRun (autoPlay : Bool) (intervalMs : ℕ) (total : ℤ) (s : ShowcaseSys)
    (evs : List SysEvent) : ShowcaseSys :=
  evs.foldl (sysStep autoPlay intervalMs total) s

/-- Well-formedness of the hook state: the live intervals are exactly the one
held by the current effect, if any. -/
def hookInv (s : HookState) : Prop :=
  match s.cur with
  | some id => s.live = [id]
  | none => s.live = []

/-!
### Greeting rotator (`RotatingGreeting`, src/unnamed/part_000 lines 23–36, 70–81)
-/

/-- The fixed multilingual greeting list (src/unnamed/part_000 lines 23–36). -/
def GREETINGS : List String :=
  [ "Happy Deepavali"
  , "दीपोत्सव मंगलमयः"
  , "ಶುಭ ದೀಪಾವಳಿ"
  , "शुभ दीपावली"
  , "শুভ দীপাবলি"
  , "શુભ દિવાળી"
  , "ശുഭ ദീപാവലി"
  , "శుభ దీపావళి"
  , "தீபாவளி நல்வாழ்த்துக்கள்"
  , "ਦਿਵਾਲੀ ਦੀਆਂ ਮੁਬਾਰਕਾਂ"
  , "ଶୁଭ ଦୀପାବଳୀ"
  , "दीपावली की शुभकामनाएँ" ]

/-- Rotator state: `useState(0)` index and `useState(true)` fade flag. -/
structure GreetingState where
  i : ℕ
  fade : Bool
deriving DecidableEq, Repr

/-- Rotator state at mount. -/
def initGreeting : GreetingState := ⟨0, true⟩

/-- Immediate part of the tick handler: `setFade(false)`. -/
def greetingTickStart (s : GreetingState) : GreetingState := { s with fade := false }

/-- Body of the `setTimeout(..., 220)` callback:
`setI((p) => (p + 1) % GREETINGS.length); setFade(true)`. -/
def greetingTickFinish (s : GreetingState) : GreetingState :=
  ⟨(s.i + 1) % GREETINGS.length, true⟩

/-- One full timer tick: the immediate fade-out then the delayed swap. -/
def greetingTick (s : GreetingState) : GreetingState :=
  greetingTickFinish (greetingTickStart s)

/-- Milliseconds between the tick and the index swap: `setTimeout(..., 220)`. -/
def greetingSwapDelayMs : ℕ := 220

/-!
### Ember particle field (`RamImageFX`, src/unnamed/part_001 lines 70–120)
-/

/-- One ember particle: position, velocity, radius, alpha and hue. -/
structure Particle where
  x : ℚ
  y : ℚ
  vx : ℚ
  vy : ℚ
  r : ℚ
  a : ℚ
  hue : ℚ
deriving DecidableEq, Repr

/-- Canvas environment of one particle-field instance: backing-store pixel
size, device pixel ratio and the configured ember hue range. -/
structure FieldEnv where
  width : ℚ
  height : ℚ
  dpr : ℚ
  hueMin : ℚ
  hueMax : ℚ
deriving DecidableEq, Repr

/-- The `Math.random()` draws consumed when (re)spawning one particle. -/
structure RandDraws where
  rx : ℚ
  ra : ℚ
  rvx : ℚ
  rvy : ℚ
  rr : ℚ
  rhue : ℚ
deriving DecidableEq, Repr

/-- A `Math.random()` result lies in `[0, 1)`. -/
def inUnit (q : ℚ) : Prop := 0 ≤ q ∧ q < 1

/-- All six draws lie in `[0, 1)`. -/
def RandDraws.valid (rd : RandDraws) : Prop :=
  inUnit rd.rx ∧ inUnit rd.ra ∧ inUnit rd.rvx ∧ inUnit rd.rvy ∧
    inUnit rd.rr ∧ inUnit rd.rhue

/-- Mount-time spawn of one particle (lines 73–81 of part_001). -/
def spawnInit (env : FieldEnv) (rd : RandDraws) : Particle :=
  { x := rd.rx * env.width
  , y := rd.ra * env.height
  , vx := (rd.rvx - 0.5) * 0.08 * env.dpr
  , vy := (-0.12 - rd.rvy * 0.2) * env.dpr
  , r := (1 + rd.rr * 1.8) * env.dpr
  , a := 0.3 + rd.ra * 0.6
  , hue := env.hueMin + rd.rhue * (env.hueMax - env.hueMin) }

/-- Per-frame advance: `p.x += p.vx; p.y += p.vy; p.a -= 0.0008`. -/
def advance (p : Particle) : Particle :=
  { p with x := p.x + p.vx, y := p.y + p.vy, a := p.a - 0.0008 }

/-- Recycle trigger tested after the advance:
`p.y < -10 * DPR || p.a <= 0.02`. -/
def needsRecycle (env : FieldEnv) (p : Particle) : Bool :=
  decide (p.y < -10 * env.dpr) || decide (p.a ≤ 0.02)

/-- In-place respawn performed when the recycle trigger holds
(lines 96–102 of part_001): fresh random x, bottom-edge y, fresh alpha,
velocity, radius and hue. -/
def respawn (env : FieldEnv) (rd : RandDraws) : Particle :=
  { x := rd.rx * env.width
  , y := env.height + 10 * env.dpr
  , a := 0.4 + rd.ra * 0.6
  , vx := (rd.rvx - 0.5) * 0.08 * env.dpr
  , vy := (-0.12 - rd.rvy * 0.2) * env.dpr
  , r := (1 + rd.rr * 1.8) * env.dpr
  , hue := env.hueMin + rd.rhue * (env.hueMax - env.hueMin) }

/-- One frame step of a single particle: advance, then recycle in place when
the trigger holds. -/
def stepParticle (env : FieldEnv) (rd : RandDraws) (p : Particle) : Particle :=
  let q := advance p
  if needsRecycle env q then respawn env rd else q

/-- The particle pool allocated once at mount:
`Array.from({ length: N }, () => ...)` with `N = emberCount`. -/
def initField (env : FieldEnv) (rds : ℕ → RandDraws) (n : ℕ) : List Particle :=
  (List.range n).map (fun k => spawnInit env (rds k))

/-- One animation frame over the whole pool: `for (const p of ps) { ... }`
mutates each slot in place, never inserting or removing. -/
def stepField (env : FieldEnv) (rds : ℕ → RandDraws) (ps : List Particle) :
    List Particle :=
  ps.mapIdx (fun k p => stepParticle env (rds k) p)

/-- Run a sequence of animation frames, each with its own random draws. -/
def runField (env : FieldEnv) (frames : List (ℕ → RandDraws))
    (ps : List Particle) : List Particle :=
  frames.foldl (fun acc f => stepField env f acc) ps

/-- Ember-count option resolution: `options.emberCount ?? 80`. -/
def emberCountOf (o : Option ℕ) : ℕ := o.getD 80

/-- A sample canvas environment (a 100×50 backing store at pixel ratio 1 with
the default hue range 35–60) used to instantiate universally quantified
statements. -/
def sampleEnv : FieldEnv := ⟨100, 50, 1, 35, 60⟩

/-- Sample random draws, all equal to 1/2. -/
def sampleDraws : RandDraws := ⟨1/2, 1/2, 1/2, 1/2, 1/2, 1/2⟩

/-- A sample particle. -/
def sampleParticle : Particle := ⟨40, 20, 0, -1/10, 1, 1/2, 40⟩

/-!
### Vignette strength in the two FX variants

The no-blur variant (src/unnamed/part_001 line 40) clamps:
`Math.max(0, Math.min(1, options.vignetteStrength ?? 0.6))`.
The bloom variant (src/deepavali-shriraam/src/RamImageFX.tsx line 42) does
not: `options.vignetteStrength ?? 1`.
-/

namespace NoBlurFX

/-- Vignette strength used by the no-blur variant. -/
def vignetteStrength (o : Option ℚ) : ℚ := max 0 (min 1 (o.getD 0.6))

end NoBlurFX

namespace BloomFX

/-- Vignette strength used by the bloom variant. -/
def vignetteStrength (o : Option ℚ) : ℚ := o.getD 1

end BloomFX

/-!
### Firework anchors and the `Pop` animation
-/

/-- One configured firework anchor: CSS positions and an optional delay. -/
structure FireworkPt where
  x : String
  y : String
  delay : Option ℚ
deriving DecidableEq, Repr

/-- Default anchors of the no-blur variant (part_001 lines 160–163). -/
def defaultFwPts : List FireworkPt :=
  [⟨"22%", "24%", some 0.2⟩, ⟨"78%", "26%", some 0.7⟩]

/-- Anchor-list resolution of the no-blur variant:
`options.fireworks && options.fireworks.length ? options.fireworks : defaults`
(an absent list and an empty list are both falsy). -/
def fwPts (configured : Option (List FireworkPt)) : List FireworkPt :=
  match configured with
  | some l => if l.length ≠ 0 then l else defaultFwPts
  | none => defaultFwPts

/-- Truncation of a rational toward zero, as JavaScript division inside `%`. -/
def ratTrunc (q : ℚ) : ℤ := if 0 ≤ q then ⌊q⌋ else ⌈q⌉

/-- JavaScript remainder `a % b` on rationals: `a - b * trunc(a / b)`. -/
def jsMod (a b : ℚ) : ℚ := a - b * (ratTrunc (a / b) : ℚ)

/-- Burst phase of `Pop.go` (RamImageFX.tsx lines 275):
`const phase = (t + (delay || 0) * 2) % 2.8`. -/
def popPhase (t d : ℚ) : ℚ := jsMod (t + d * 2) 2.8

/-- Burst scale of `Pop.go` (line 276):
`phase < 0.3 ? phase / 0.3 : phase < 1.2 ? 1 : Math.max(0, 1.8 - phase)`. -/
def popScale (t d : ℚ) : ℚ :=
  if popPhase t d < 0.3 then popPhase t d / 0.3
  else if popPhase t d < 1.2 then 1
  else max 0 (1.8 - popPhase t d)

/-!
### Audio transport (`AudioControls`, src/deepavali-shriraam/src/App.tsx)
-/

/-- Target position computed by `skip(deltaSec)` (App.tsx lines 104–115).
`duration = none` models a non-finite `a.duration` (metadata not loaded), for
which the code substitutes `currentTime + deltaSec + 1` as the `Math.min`
bound. -/
def skipTarget (currentTime deltaSec : ℚ) (duration : Option ℚ) : ℚ :=
  match duration with
  | some d => max 0 (min d (currentTime + deltaSec))
  | none => max 0 (min (currentTime + deltaSec + 1) (currentTime + deltaSec))

/-- Audio element / component state touched by `changeVol`: the muted flag,
the element volume `a.volume`, and the React `vol` state. -/
structure AudioState where
  muted : Bool
  volume : ℚ
  vol : ℚ
deriving DecidableEq, Repr

/-- Volume change handler (App.tsx lines 128–138):
`setVol(v); a.volume = v; if (a.muted && v > 0) { a.muted = false; ... }`. -/
def changeVol (v : ℚ) (s : AudioState) : AudioState :=
  let s1 : AudioState := { s with vol := v, volume := v }
  if s1.muted = true ∧ 0 < v then { s1 with muted := false } else s1

/-! ## Helper lemmas -/

lemma tmod_bounds {a b : ℤ} (ha : 0 ≤ a) (hb : 0 < b) :
    0 ≤ a.tmod b ∧ a.tmod b < b := by
  rw [Int.tmod_eq_emod ha (le_of_lt hb)]
  exact ⟨Int.emod_nonneg a (ne_of_gt hb), Int.emod_lt_of_pos a hb⟩

lemma nextIndex_mem {total p : ℤ} (htotal : 0 < total) (hp : 0 ≤ p) :
    0 ≤ nextIndex total p ∧ nextIndex total p < total := by
  unfold nextIndex
  exact tmod_bounds (by linarith) htotal

lemma prevIndex_mem {total p : ℤ} (htotal : 0 < total) (hp0 : 0 ≤ p) :
    0 ≤ prevIndex total p ∧ prevIndex total p < total := by
  unfold prevIndex
  exact tmod_bounds (by linarith) htotal

lemma applyStep_mem {total p : ℤ} (htotal : 0 < total) (hp0 : 0 ≤ p)
    (s : NavStep) :
    0 ≤ applyStep total p s ∧ applyStep total p s < total := by
  cases s with
  | next => exact nextIndex_mem htotal hp0
  | prev => exact prevIndex_mem htotal hp0

lemma runSteps_mem {total : ℤ} (htotal : 0 < total) :
    ∀ (ss : List NavStep) (p : ℤ), 0 ≤ p → p < total →
      0 ≤ runSteps total p ss ∧ runSteps total p ss < total := by
  intro ss
  induction ss with
  | nil => intro p hp0 hp; exact ⟨hp0, hp⟩
  | cons s rest ih =>
      intro p hp0 hp
      have h := applyStep_mem htotal hp0 s
      exact ih (applyStep total p s) h.1 h.2

lemma nextIndex_wrap (total : ℤ) :
    nextIndex total (total - 1) = 0 := by
  unfold nextIndex
  have h : total - 1 + 1 = total := by ring
  rw [h, Int.tmod_self]

lemma prevIndex_wrap {total : ℤ} (htotal : 0 < total) :
    prevIndex total 0 = total - 1 := by
  unfold prevIndex
  have h : (0 : ℤ) - 1 + total = total - 1 := by ring
  rw [h, Int.tmod_eq_emod (by linarith) (le_of_lt htotal)]
  exact Int.emod_eq_of_lt (by linarith) (by linarith)

lemma jsMod_eq_fract {a b : ℚ} (ha : 0 ≤ a) (hb : 0 < b) :
    jsMod a b = b * Int.fract (a / b) := by
  unfold jsMod ratTrunc
  rw [if_pos (div_nonneg ha hb.le)]
  have h : Int.fract (a / b) = a / b - ⌊a / b⌋ := rfl
  rw [h]
  field_simp

lemma jsMod_bounds {a b : ℚ} (ha : 0 ≤ a) (hb : 0 < b) :
    0 ≤ jsMod a b ∧ jsMod a b < b := by
  rw [jsMod_eq_fract ha hb]
  refine ⟨mul_nonneg hb.le (Int.fract_nonneg _), ?_⟩
  have h := Int.fract_lt_one (a / b)
  nlinarith

lemma jsMod_sub (a b : ℚ) : a - jsMod a b = b * (ratTrunc (a / b) : ℚ) := by
  unfold jsMod
  ring

lemma jsMod_congr {x y b : ℚ} (hx : 0 ≤ x) (hy : 0 ≤ y) (hb : 0 < b)
    (z : ℤ) (h : x - y = b * z) : jsMod x b = jsMod y b := by
  rw [jsMod_eq_fract hx hb, jsMod_eq_fract hy hb]
  have hxy : x / b = y / b + (z : ℚ) := by
    field_simp
    linarith
  rw [hxy, Int.fract_add_int]

lemma popPhase_inj {t d1 d2 : ℚ} (h1 : 0 ≤ d1) (h2 : 0 ≤ d2)
    (h : popPhase t d1 = popPhase t d2) :
    jsMod (d1 * 2) 2.8 = jsMod (d2 * 2) 2.8 := by
  unfold popPhase at h
  have hz1 := jsMod_sub (t + d1 * 2) 2.8
  have hz2 := jsMod_sub (t + d2 * 2) 2.8
  apply jsMod_congr (by linarith) (by linarith) (by norm_num)
    (ratTrunc ((t + d1 * 2) / 2.8) - ratTrunc ((t + d2 * 2) / 2.8))
  push_cast
  linarith

lemma rerunHook_inv {s : HookState} (h : hookInv s) (d : Option ℕ) (f : ℕ) :
    hookInv (rerunHook s d f) := by
  obtain ⟨live, cur⟩ := s
  cases cur <;> cases d <;> simp_all [hookInv, rerunHook]

lemma rerunAll_inv :
    ∀ (runs : List (Option ℕ × ℕ)) (s : HookState), hookInv s →
      hookInv (rerunAll s runs) := by
  intro runs
  induction runs with
  | nil => intro s h; exact h
  | cons dr rest ih =>
      intro s h
      exact ih (rerunHook s dr.1 dr.2) (rerunHook_inv h dr.1 dr.2)

lemma hookInv_length {s : HookState} (h : hookInv s) : s.live.length ≤ 1 := by
  obtain ⟨live, cur⟩ := s
  cases cur <;> simp_all [hookInv]

lemma sysStep_inv {autoPlay : Bool} {intervalMs : ℕ} {total : ℤ}
    {s : ShowcaseSys} (h : hookInv s.hook) (ev : SysEvent) :
    hookInv (sysStep autoPlay intervalMs total s ev).hook := by
  cases ev with
  | rerun fresh => exact rerunHook_inv h _ fresh
  | fire =>
      show hookInv (if s.hook.live = [] then s
        else { s with index := if autoPlay then nextIndex total s.index
                      else s.index }).hook
      by_cases hl : s.hook.live = []
      · rw [if_pos hl]; exact h
      · rw [if_neg hl]; exact h

lemma sysRun_inv (autoPlay : Bool) (intervalMs : ℕ) (total : ℤ) :
    ∀ (evs : List SysEvent) (s : ShowcaseSys), hookInv s.hook →
      hookInv (sysRun autoPlay intervalMs total s evs).hook := by
  intro evs
  induction evs with
  | nil => intro s h; exact h
  | cons ev rest ih =>
      intro s h
      exact ih (sysStep autoPlay intervalMs total s ev) (sysStep_inv h ev)

lemma sysRun_autoplay_off (intervalMs : ℕ) (total : ℤ) :
    ∀ (evs : List SysEvent) (s : ShowcaseSys), s.hook.live = [] →
      (sysRun false intervalMs total s evs).hook.live = [] ∧
        (sysRun false intervalMs total s evs).index = s.index := by
  intro evs
  induction evs with
  | nil => intro s h; exact ⟨h, rfl⟩
  | cons ev rest ih =>
      intro s h
      have hstep : (sysStep false intervalMs total s ev).hook.live = [] ∧
          (sysStep false intervalMs total s ev).index = s.index := by
        cases ev with
        | rerun fresh =>
            refine ⟨?_, rfl⟩
            cases hc : s.hook.cur <;>
              simp [sysStep, rerunHook, showcaseDelay, hc, h]
        | fire => simp [sysStep, h]
      have hrest := ih (sysStep false intervalMs total s ev) hstep.1
      exact ⟨hrest.1, hrest.2.trans hstep.2⟩

lemma stepField_length (env : FieldEnv) (rds : ℕ → RandDraws)
    (ps : List Particle) : (stepField env rds ps).length = ps.length :=
  List.length_mapIdx

lemma runField_length (env : FieldEnv) :
    ∀ (frames : List (ℕ → RandDraws)) (ps : List Particle),
      (runField env frames ps).length = ps.length := by
  intro frames
  induction frames with
  | nil => intro ps; rfl
  | cons f rest ih =>
      intro ps
      have h : runField env (f :: rest) ps = runField env rest (stepField env f ps) := rfl
      rw [h, ih, stepField_length]

lemma initField_length (env : FieldEnv) (rds : ℕ → RandDraws) (n : ℕ) :
    (initField env rds n).length = n := by
  unfold initField
  rw [List.length_map, List.length_range]

/-! ## Claim theorems -/

/-- C1.  For every slide count `total > 0` and every finite sequence of
`next()`/`prev()` calls starting from index 0, the showcase index stays in
`[0, total)`; `next()` at `total - 1` yields 0 and `prev()` at 0 yields
`total - 1`; with 4 slides, three consecutive `next()` ticks take the index
0→1→2→3 and a fourth wraps it back to 0. -/
theorem C1_index_wraps (total : ℤ) (ss : List NavStep) (htotal : 0 < total) :
    (0 ≤ runSteps total 0 ss ∧ runSteps total 0 ss < total) ∧
    nextIndex total (total - 1) = 0 ∧
    prevIndex total 0 = total - 1 ∧
    runSteps 4 0 [NavStep.next] = 1 ∧
    runSteps 4 0 [NavStep.next, NavStep.next] = 2 ∧
    runSteps 4 0 [NavStep.next, NavStep.next, NavStep.next] = 3 ∧
    runSteps 4 0 [NavStep.next, NavStep.next, NavStep.next, NavStep.next] = 0 := by
  refine ⟨runSteps_mem htotal ss 0 le_rfl htotal, nextIndex_wrap total,
    prevIndex_wrap htotal, by decide, by decide, by decide, by decide⟩

/-- C1 witness: the theorem applied at `total = 4` and a concrete call
sequence. -/
theorem C1_index_wraps_witness :
    (0 ≤ runSteps 4 0 [NavStep.next, NavStep.prev] ∧
      runSteps 4 0 [NavStep.next, NavStep.prev] < 4) ∧
    nextIndex 4 (4 - 1) = 0 ∧
    prevIndex 4 0 = 4 - 1 ∧
    runSteps 4 0 [NavStep.next] = 1 ∧
    runSteps 4 0 [NavStep.next, NavStep.next] = 2 ∧
    runSteps 4 0 [NavStep.next, NavStep.next, NavStep.next] = 3 ∧
    runSteps 4 0 [NavStep.next, NavStep.next, NavStep.next, NavStep.next] = 0 :=
  C1_index_wraps 4 [NavStep.next, NavStep.prev] (by decide)

/-- C3.  The particle pool has fixed size `emberCount` (default 80) for the
component's lifetime: allocated once at mount, recycled in place, never
inserted into or removed from, so every frame advances and draws exactly
`emberCount` particles. -/
theorem C3_fixed_pool (env : FieldEnv) (rds : ℕ → RandDraws) (o : Option ℕ)
    (frames : List (ℕ → RandDraws)) (ps : List Particle) :
    emberCountOf none = 80 ∧
    (initField env rds (emberCountOf o)).length = emberCountOf o ∧
    (stepField env rds ps).length = ps.length ∧
    (runField env frames (initField env rds (emberCountOf o))).length =
      emberCountOf o := by
  refine ⟨rfl, initField_length env rds _, stepField_length env rds ps, ?_⟩
  rw [runField_length, initField_length]

/-- C4 counterexample: the claim says every FX variant clamps the vignette
strength, but the bloom variant uses an input of 2 as 2, not 1. -/
theorem C4_counterexample :
    BloomFX.vignetteStrength (some 2) = 2 ∧
      ¬ BloomFX.vignetteStrength (some 2) ≤ 1 := by
  constructor
  · rfl
  · norm_num [BloomFX.vignetteStrength]

/-- C4 amended: the no-blur FX variant clamps the vignette strength to
`[0, 1]` before use (an input of −1 is used as 0 and an input of 2 as 1, with
default 0.6), but the bloom variant uses the configured value unclamped
(default 1): there an input of 2 is used as 2. -/
theorem C4_vignette_clamped (o : Option ℚ) :
    0 ≤ NoBlurFX.vignetteStrength o ∧
    NoBlurFX.vignetteStrength o ≤ 1 ∧
    NoBlurFX.vignetteStrength (some (-1)) = 0 ∧
    NoBlurFX.vignetteStrength (some 2) = 1 ∧
    NoBlurFX.vignetteStrength none = 0.6 ∧
    BloomFX.vignetteStrength (some 2) = 2 ∧
    BloomFX.vignetteStrength none = 1 := by
  refine ⟨le_max_left 0 _, max_le (by norm_num) (min_le_left 1 _),
    by norm_num [NoBlurFX.vignetteStrength],
    by norm_num [NoBlurFX.vignetteStrength],
    by norm_num [NoBlurFX.vignetteStrength], rfl, rfl⟩

/-- C5.  `skip(delta)` sets the target position to `currentTime + delta`
clamped to `[0, duration]` when the duration is known (and to `[0, ∞)` while
it is not); in particular `skip(-10)` at `currentTime = 5` targets 0, never a
negative value, and the computation is total on every input. -/
theorem C5_skip_clamps (c d dur : ℚ) (hdur : 0 ≤ dur) :
    0 ≤ skipTarget c d (some dur) ∧
    skipTarget c d (some dur) ≤ dur ∧
    (0 ≤ c + d → c + d ≤ dur → skipTarget c d (some dur) = c + d) ∧
    skipTarget c d none = max 0 (c + d) ∧
    skipTarget 5 (-10) (some dur) = 0 ∧
    skipTarget 5 (-10) none = 0 := by
  refine ⟨le_max_left 0 _, max_le hdur (min_le_left dur _), ?_, ?_, ?_, ?_⟩
  · intro h0 hle
    show max 0 (min dur (c + d)) = c + d
    rw [min_eq_right hle, max_eq_right h0]
  · show max 0 (min (c + d + 1) (c + d)) = max 0 (c + d)
    rw [min_eq_right (by linarith)]
  · show max 0 (min dur (5 + -10)) = 0
    have h1 : min dur (5 + -10) ≤ 0 := le_trans (min_le_right dur _) (by norm_num)
    rw [max_eq_left h1]
  · show max 0 (min (5 + -10 + 1) (5 + -10)) = 0
    rw [min_eq_right (by norm_num), max_eq_left (by norm_num)]

/-- C5 witness: the theorem at `currentTime = 5`, `delta = -10`,
`duration = 300`. -/
theorem C5_skip_clamps_witness :
    0 ≤ skipTarget 5 (-10) (some 300) ∧
    skipTarget 5 (-10) (some 300) ≤ 300 ∧
    (0 ≤ (5 : ℚ) + -10 → (5 : ℚ) + -10 ≤ 300 →
      skipTarget 5 (-10) (some 300) = 5 + -10) ∧
    skipTarget 5 (-10) none = max 0 (5 + -10) ∧
    skipTarget 5 (-10) (some 300) = 0 ∧
    skipTarget 5 (-10) none = 0 :=
  C5_skip_clamps 5 (-10) 300 (by norm_num)

/-- C6.  `changeVol(v)` sets the effective volume to `v`; if the player was
muted and `v > 0` it also unmutes; setting the volume to 0 leaves the muted
flag unchanged; after `changeVol(0.35)` while muted the player is unmuted with
volume 0.35. -/
theorem C6_changeVol (v : ℚ) (s : AudioState) :
    (changeVol v s).volume = v ∧
    (changeVol v s).vol = v ∧
    (s.muted = true → 0 < v → (changeVol v s).muted = false) ∧
    (changeVol 0 s).muted = s.muted ∧
    (s.muted = false → (changeVol v s).muted = false) ∧
    changeVol 0.35 ⟨true, 0, 0.6⟩ = ⟨false, 0.35, 0.35⟩ := by
  refine ⟨?_, ?_, ?_, ?_, ?_, by norm_num [changeVol]⟩
  · unfold changeVol
    by_cases h : s.muted = true ∧ 0 < v <;> simp [h]
  · unfold changeVol
    by_cases h : s.muted = true ∧ 0 < v <;> simp [h]
  · intro hm hv
    unfold changeVol
    simp [hm, hv]
  · unfold changeVol
    simp
  · intro hm
    unfold changeVol
    simp [hm]

/-- C6 witness: the theorem at `v = 0.35` on a muted state. -/
theorem C6_changeVol_witness :
    (changeVol 0.35 ⟨true, 0, 0.6⟩).volume = 0.35 ∧
    (changeVol 0.35 ⟨true, 0, 0.6⟩).vol = 0.35 ∧
    ((true : Bool) = true → (0 : ℚ) < 0.35 →
      (changeVol 0.35 ⟨true, 0, 0.6⟩).muted = false) ∧
    (changeVol 0 ⟨true, 0, 0.6⟩).muted = true ∧
    ((true : Bool) = false → (changeVol 0.35 ⟨true, 0, 0.6⟩).muted = false) ∧
    changeVol 0.35 ⟨true, 0, 0.6⟩ = ⟨false, 0.35, 0.35⟩ :=
  C6_changeVol 0.35 ⟨true, 0, 0.6⟩

/-- C7.  On each greeting timer tick the rotator sets `fade = false`, and 220
milliseconds later sets `index = (index + 1) mod N` and `fade = true`, where
`N = 12` is the length of the fixed greeting list; starting from index 0, N
consecutive ticks visit every one of the N greeting strings exactly once
before the sequence repeats. -/
theorem C7_greeting_cycle (s : GreetingState) :
    (greetingTickStart s).fade = false ∧
    (greetingTickFinish s).fade = true ∧
    (greetingTickFinish s).i = (s.i + 1) % GREETINGS.length ∧
    greetingSwapDelayMs = 220 ∧
    GREETINGS.length = 12 ∧
    GREETINGS.Nodup ∧
    ((List.range GREETINGS.length).map
        (fun k => (greetingTick^[k + 1] initGreeting).i)).Perm
      (List.range GREETINGS.length) ∧
    ((List.range GREETINGS.length).map
        (fun k => GREETINGS.getD (greetingTick^[k + 1] initGreeting).i "")).Perm
      GREETINGS ∧
    greetingTick^[GREETINGS.length] initGreeting = initGreeting :=
  ⟨rfl, rfl, rfl, rfl, rfl, by decide, by decide, by decide, by decide⟩

/-- C2.  Each frame decreases a particle's alpha by exactly 0.0008 during the
advance; the particle is recycled in that frame exactly when, after the
advance, its alpha is ≤ 0.02 or its y is above the top edge by more than
10·DPR; on recycle its alpha is reset into the spawn range `[0.4, 1)`, its x
is a fresh random position across the width and its y is the bottom edge
`height + 10·DPR`; in a frame with no recycle the alpha does not increase. -/
theorem C2_particle_lifecycle (env : FieldEnv) (rd : RandDraws) (p : Particle)
    (hw : 0 < env.width) (hrd : rd.valid) :
    (advance p).a = p.a - 0.0008 ∧
    (needsRecycle env (advance p) = true ↔
      (advance p).y < -10 * env.dpr ∨ (advance p).a ≤ 0.02) ∧
    (needsRecycle env (advance p) = true →
      stepParticle env rd p = respawn env rd) ∧
    (needsRecycle env (advance p) = false →
      stepParticle env rd p = advance p) ∧
    (needsRecycle env (advance p) = false →
      (stepParticle env rd p).a ≤ p.a) ∧
    0.4 ≤ (respawn env rd).a ∧ (respawn env rd).a < 1 ∧
    (respawn env rd).y = env.height + 10 * env.dpr ∧
    0 ≤ (respawn env rd).x ∧ (respawn env rd).x < env.width := by
  obtain ⟨hx, ha, -, -, -, -⟩ := hrd
  refine ⟨rfl, ?_, ?_, ?_, ?_, ?_, ?_, rfl, ?_, ?_⟩
  · simp [needsRecycle]
  · intro h
    simp [stepParticle, h]
  · intro h
    simp [stepParticle, h]
  · intro h
    have he : stepParticle env rd p = advance p := by simp [stepParticle, h]
    rw [he]
    show p.a - 0.0008 ≤ p.a
    linarith
  · show 0.4 ≤ 0.4 + rd.ra * 0.6
    nlinarith [ha.1]
  · show 0.4 + rd.ra * 0.6 < 1
    nlinarith [ha.2]
  · show 0 ≤ rd.rx * env.width
    exact mul_nonneg hx.1 hw.le
  · show rd.rx * env.width < env.width
    nlinarith [hx.2]

/-- C2 witness: the theorem at a concrete environment, draw vector and
particle. -/
theorem C2_particle_lifecycle_witness :
    (advance sampleParticle).a = sampleParticle.a - 0.0008 ∧
    (needsRecycle sampleEnv (advance sampleParticle) = true ↔
      (advance sampleParticle).y < -10 * sampleEnv.dpr ∨
        (advance sampleParticle).a ≤ 0.02) ∧
    (needsRecycle sampleEnv (advance sampleParticle) = true →
      stepParticle sampleEnv sampleDraws sampleParticle =
        respawn sampleEnv sampleDraws) ∧
    (needsRecycle sampleEnv (advance sampleParticle) = false →
      stepParticle sampleEnv sampleDraws sampleParticle =
        advance sampleParticle) ∧
    (needsRecycle sampleEnv (advance sampleParticle) = false →
      (stepParticle sampleEnv sampleDraws sampleParticle).a ≤
        sampleParticle.a) ∧
    0.4 ≤ (respawn sampleEnv sampleDraws).a ∧
    (respawn sampleEnv sampleDraws).a < 1 ∧
    (respawn sampleEnv sampleDraws).y =
      sampleEnv.height + 10 * sampleEnv.dpr ∧
    0 ≤ (respawn sampleEnv sampleDraws).x ∧
    (respawn sampleEnv sampleDraws).x < sampleEnv.width :=
  C2_particle_lifecycle sampleEnv sampleDraws sampleParticle (by norm_num [sampleEnv])
    (by norm_num [sampleDraws, RandDraws.valid, inUnit])

/-- C10.  In the no-blur variant, an empty configured fireworks list is
treated like an omitted one: both resolve to the two default preset anchors,
while a non-empty configured list is used as given. -/
theorem C10_fw_default (l : List FireworkPt) (hl : l ≠ []) :
    fwPts none = defaultFwPts ∧
    fwPts (some []) = defaultFwPts ∧
    fwPts (some l) = l ∧
    defaultFwPts.length = 2 := by
  refine ⟨rfl, rfl, ?_, rfl⟩
  have h : l.length ≠ 0 := by
    intro h0
    exact hl (List.length_eq_zero.mp h0)
  simp [fwPts, h]

/-- C10 witness: the theorem at the slide-3 configured anchor list. -/
theorem C10_fw_default_witness :
    fwPts none = defaultFwPts ∧
    fwPts (some []) = defaultFwPts ∧
    fwPts (some [⟨"65%", "20%", some 0.4⟩]) = [⟨"65%", "20%", some 0.4⟩] ∧
    defaultFwPts.length = 2 :=
  C10_fw_default [⟨"65%", "20%", some 0.4⟩] (by simp)

/-- C8 counterexample: the claim says two bursts with different delays are
offset in phase, but delays 0 and 1.4 give the same phase (and scale) at
every aligned frame time, here `t = 0`: the doubled delay difference 2.8 is
exactly the cycle period. -/
theorem C8_counterexample :
    (1.4 : ℚ) ≠ 0 ∧ popPhase 0 1.4 = popPhase 0 0 ∧
      popScale 0 1.4 = popScale 0 0 := by
  refine ⟨by norm_num, by norm_num [popPhase, jsMod, ratTrunc], ?_⟩
  norm_num [popScale, popPhase, jsMod, ratTrunc]

/-- C8 amended: for every frame time `t ≥ 0` and delay `d ≥ 0` the burst
phase `(t + 2d) mod 2.8` lies in `[0, 2.8)` and the scale is `phase/0.3` on
the ramp, exactly 1 on the hold `[0.3, 1.2)` and `max 0 (1.8 - phase)`
afterwards, always in `[0, 1]`; two bursts are offset in phase whenever their
doubled delay difference is not a multiple of the 2.8-second period (rather
than whenever their delays merely differ). -/
theorem C8_pop_scale (t d d2 : ℚ) (ht : 0 ≤ t) (hd : 0 ≤ d) (hd2 : 0 ≤ d2) :
    0 ≤ popPhase t d ∧ popPhase t d < 2.8 ∧
    (popPhase t d < 0.3 → popScale t d = popPhase t d / 0.3) ∧
    (0.3 ≤ popPhase t d → popPhase t d < 1.2 → popScale t d = 1) ∧
    (1.2 ≤ popPhase t d → popScale t d = max 0 (1.8 - popPhase t d)) ∧
    0 ≤ popScale t d ∧ popScale t d ≤ 1 ∧
    (jsMod (d * 2) 2.8 ≠ jsMod (d2 * 2) 2.8 → popPhase t d ≠ popPhase t d2) := by
  have hb : 0 ≤ popPhase t d ∧ popPhase t d < 2.8 :=
    jsMod_bounds (by linarith) (by norm_num)
  refine ⟨hb.1, hb.2, ?_, ?_, ?_, ?_, ?_, ?_⟩
  · intro h
    unfold popScale
    rw [if_pos h]
  · intro h1 h2
    unfold popScale
    rw [if_neg (not_lt.mpr h1), if_pos h2]
  · intro h1
    unfold popScale
    rw [if_neg (not_lt.mpr (by linarith)), if_neg (not_lt.mpr h1)]
  · unfold popScale
    split_ifs with h1 h2
    · exact div_nonneg hb.1 (by norm_num)
    · norm_num
    · exact le_max_left 0 _
  · unfold popScale
    split_ifs with h1 h2
    · rw [div_le_one (by norm_num)]
      linarith
    · norm_num
    · push_neg at h1 h2
      exact max_le (by norm_num) (by linarith)
  · intro hne heq
    exact hne (popPhase_inj hd hd2 heq)

/-- C8 witness: the theorem at `t = 0` with the two default no-blur delays
0.2 and 0.6, whose residues differ. -/
theorem C8_pop_scale_witness :
    (0 ≤ popPhase 0 0.2 ∧ popPhase 0 0.2 < 2.8 ∧
      (popPhase 0 0.2 < 0.3 → popScale 0 0.2 = popPhase 0 0.2 / 0.3) ∧
      (0.3 ≤ popPhase 0 0.2 → popPhase 0 0.2 < 1.2 → popScale 0 0.2 = 1) ∧
      (1.2 ≤ popPhase 0 0.2 → popScale 0 0.2 = max 0 (1.8 - popPhase 0 0.2)) ∧
      0 ≤ popScale 0 0.2 ∧ popScale 0 0.2 ≤ 1 ∧
      (jsMod (0.2 * 2) 2.8 ≠ jsMod (0.6 * 2) 2.8 →
        popPhase 0 0.2 ≠ popPhase 0 0.6)) ∧
    jsMod (0.2 * 2) 2.8 ≠ jsMod (0.6 * 2) 2.8 :=
  ⟨C8_pop_scale 0 0.2 0.6 (by norm_num) (by norm_num) (by norm_num),
    by norm_num [jsMod, ratTrunc]⟩

/-- C9.  When `autoPlay` is false the delay passed to `useInterval` is null,
no interval is ever armed, and no timer step changes the slide index; when
`autoPlay` is true an armed interval's tick applies `next()`; and every
effect re-run clears the old interval before arming a new one, so at most one
slide-advance interval is live at any time. -/
theorem C9_timer_discipline (intervalMs : ℕ) (total : ℤ) (evs : List SysEvent)
    (runs : List (Option ℕ × ℕ)) (s : ShowcaseSys)
    (hlive : s.hook.live ≠ []) :
    showcaseDelay false intervalMs = none ∧
    showcaseDelay true intervalMs = some intervalMs ∧
    (sysRun false intervalMs total initSys evs).hook.live = [] ∧
    (sysRun false intervalMs total initSys evs).index = 0 ∧
    (sysStep true intervalMs total s SysEvent.fire).index =
      nextIndex total s.index ∧
    (rerunAll initHook runs).live.length ≤ 1 ∧
    (sysRun true intervalMs total initSys evs).hook.live.length ≤ 1 := by
  have hoff := sysRun_autoplay_off intervalMs total evs initSys rfl
  refine ⟨rfl, rfl, hoff.1, hoff.2, ?_, ?_, ?_⟩
  · simp [sysStep, hlive]
  · exact hookInv_length (rerunAll_inv runs initHook rfl)
  · exact hookInv_length
      (sysRun_inv true intervalMs total evs initSys rfl)

/-- C9 witness: the theorem at a 5200 ms interval over 4 slides, a concrete
event sequence and a hook holding one armed interval. -/
theorem C9_timer_discipline_witness :
    showcaseDelay false 5200 = none ∧
    showcaseDelay true 5200 = some 5200 ∧
    (sysRun false 5200 4 initSys
      [SysEvent.rerun 1, SysEvent.fire]).hook.live = [] ∧
    (sysRun false 5200 4 initSys [SysEvent.rerun 1, SysEvent.fire]).index = 0 ∧
    (sysStep true 5200 4 ⟨⟨[7], some 7⟩, 0⟩ SysEvent.fire).index =
      nextIndex 4 (⟨⟨[7], some 7⟩, (0 : ℤ)⟩ : ShowcaseSys).index ∧
    (rerunAll initHook [(some 5200, 1), (none, 2), (some 3000, 3)]).live.length
      ≤ 1 ∧
    (sysRun true 5200 4 initSys
      [SysEvent.rerun 1, SysEvent.fire]).hook.live.length ≤ 1 :=
  C9_timer_discipline 5200 4 [SysEvent.rerun 1, SysEvent.fire]
    [(some 5200, 1), (none, 2), (some 3000, 3)] ⟨⟨[7], some 7⟩, 0⟩ (by simp)

end Deepavali
